import Mathlib

/-!
Verification of the core-hosting and emulation-runtime layer of the
playbyte repository: a shallow embedding, in Lean, of the libretro
callback router (`crates/playbyte_libretro/src/lib.rs`), the audio ring
buffer and runtime facade (`crates/playbyte_emulation/src/lib.rs`), and
the pixel-format conversion routine
(`crates/playbyte_app/src/main.rs`), with theorems about their
behaviour.

Machine integers are modelled as `Nat`/`Int` (byte values are `Nat`s
below 256 wherever the source reads bytes); C pointers are modelled as
`Option` of their pointee; fallible operations return `Except`.
-/

set_option autoImplicit false

namespace Playbyte

/-- The three representable pixel formats (`RetroPixelFormat`,
`playbyte_libretro/src/lib.rs`): discriminants 0, 1, 2. -/
inductive RetroPixelFormat where
  | Xrgb8888
  | Rgb565
  | _0rgb1555
  deriving DecidableEq, Repr

/-- `LibretroError` (`playbyte_libretro/src/lib.rs`). Payloads carried by
the Rust variants that wrap foreign error values (`libloading::Error`,
`Utf8Error`, symbol names) are elided: only the distinctness of the
variants matters for the claims. -/
inductive LibretroError where
  | LoadLibrary
  | ApiVersion (expected actual : Nat)
  | MissingSymbol
  | LoadGame
  | Serialize
  | Unserialize
  | NoFrame
  | Utf8
  deriving DecidableEq, Repr

/-! ## Audio ring buffer

`AudioRingBuffer` (`playbyte_emulation/src/lib.rs`) holds a
`Mutex<VecDeque<i16>>` plus a fixed `capacity`. The deque contents are
modelled as a `List Int`, front of the deque first. -/

/-- State of an `AudioRingBuffer`: its fixed capacity and the current
deque contents (oldest sample first). -/
structure AudioRingBuffer where
  capacity : Nat
  buf : List Int
  deriving DecidableEq, Repr

namespace AudioRingBuffer

/-- One iteration of the loop in `push_samples`: if the deque is at
capacity, `pop_front` then `push_back sample`, else just `push_back`. -/
def pushOne (capacity : Nat) (buf : List Int) (sample : Int) : List Int :=
  if buf.length = capacity then buf.tail ++ [sample] else buf ++ [sample]

/-- `AudioRingBuffer::push_samples`: fold `pushOne` over the pushed
slice, in order. -/
def push_samples (rb : AudioRingBuffer) (samples : List Int) : AudioRingBuffer :=
  { rb with buf := samples.foldl (pushOne rb.capacity) rb.buf }

/-- The loop body of `pop_samples`, iterated over the `out` slice:
each output slot receives `pop_front().unwrap_or(0)`. Returns the
filled output slice and the remaining deque. -/
def popLoop (k : Nat) (buf : List Int) : List Int × List Int :=
  match k, buf with
  | 0, buf => ([], buf)
  | k + 1, [] =>
      let r := popLoop k []
      (0 :: r.1, r.2)
  | k + 1, h :: t =>
      let r := popLoop k t
      (h :: r.1, r.2)

/-- `AudioRingBuffer::pop_samples` into an output slice of length `k`:
the filled output slice, paired with the buffer left behind. -/
def pop_samples (rb : AudioRingBuffer) (k : Nat) : List Int × AudioRingBuffer :=
  let r := popLoop k rb.buf
  (r.1, { rb with buf := r.2 })

/-- Taking the last `C` elements of a list absorbs an earlier such
truncation: truncating, appending, and truncating again is the same as
appending and truncating once. -/
theorem rtake_append_rtake (C : Nat) (l s : List Int) :
    (l.rtake C ++ s).rtake C = (l ++ s).rtake C := by
  simp only [List.rtake_eq_reverse_take_reverse, List.reverse_append, List.reverse_reverse,
    List.take_append_eq_append_take, List.take_take, List.length_reverse]
  rw [Nat.min_eq_left (Nat.sub_le C s.length)]

theorem length_rtake_le (C : Nat) (l : List Int) : (l.rtake C).length ≤ C := by
  simp only [List.rtake, List.length_drop]
  omega

/-- A single `pushOne` step keeps exactly the last `capacity` elements
of the extended deque. -/
theorem pushOne_rtake (C : Nat) (hC : 1 ≤ C) (buf : List Int) (x : Int)
    (h : buf.length ≤ C) : pushOne C buf x = (buf ++ [x]).rtake C := by
  unfold pushOne
  by_cases hEq : buf.length = C
  · rw [if_pos hEq]
    have h1 : 1 ≤ buf.length := hEq ▸ hC
    rw [List.rtake, List.length_append, List.length_singleton, hEq,
      Nat.add_sub_cancel_left, List.drop_append_of_le_length h1, List.drop_one]
  · rw [if_neg hEq, List.rtake, List.length_append, List.length_singleton]
    have : buf.length + 1 - C = 0 := by omega
    rw [this, List.drop_zero]

/-- The `push_samples` loop keeps exactly the last `capacity` elements
of (old contents ++ pushed slice), provided capacity is at least 1 and
the deque is within capacity. -/
theorem foldl_pushOne (C : Nat) (hC : 1 ≤ C) :
    ∀ (s buf : List Int), buf.length ≤ C →
      s.foldl (pushOne C) buf = (buf ++ s).rtake C := by
  intro s
  induction s with
  | nil =>
      intro buf h
      simp [List.rtake, Nat.sub_eq_zero_of_le h]
  | cons x s ih =>
      intro buf h
      rw [List.foldl_cons, pushOne_rtake C hC buf x h,
        ih _ (length_rtake_le C (buf ++ [x])), rtake_append_rtake]
      simp

/-- The `pop_samples` loop returns the oldest `k` buffered samples
followed by zeros for the shortfall, and leaves the rest buffered. -/
theorem popLoop_eq (k : Nat) (buf : List Int) :
    popLoop k buf = (buf.take k ++ List.replicate (k - buf.length) 0, buf.drop k) := by
  induction k generalizing buf with
  | zero => simp [popLoop]
  | succ k ih =>
      cases buf with
      | nil => simp [popLoop, ih, List.replicate_succ]
      | cons h t => simp [popLoop, ih t]

end AudioRingBuffer

/-! ## Callback router (`playbyte_libretro/src/lib.rs`)

The process-wide slot `CALLBACKS : OnceCell<Mutex<Option<Arc<Callbacks>>>>`
is modelled as an explicit `Option Callbacks` value threaded through the
shims; a shim that updates the registered callback set returns the
updated slot. C pointers handed to the shims are modelled as `Option`
of the readable pointee. -/

def RETRO_ENVIRONMENT_GET_CAN_DUPE : Nat := 3

def RETRO_ENVIRONMENT_SET_PIXEL_FORMAT : Nat := 10

/-- `Callbacks`: the closure record registered by a session. The
video/audio/poll closures are side-effecting; their invocations are
modelled as `Forwarded` events emitted by the shims, so only the
value-returning `input_state` closure and the `Mutex<RetroPixelFormat>`
field appear here. -/
structure Callbacks where
  input_state : Nat → Nat → Nat → Nat → Int
  pixel_format : RetroPixelFormat

/-- `Callbacks::new`: the negotiated pixel format starts as `Xrgb8888`. -/
def Callbacks.new (input_state : Nat → Nat → Nat → Nat → Int) : Callbacks :=
  ⟨input_state, RetroPixelFormat.Xrgb8888⟩

/-- `Callbacks::set_pixel_format` (stores through the mutex). -/
def Callbacks.set_pixel_format (c : Callbacks) (format : RetroPixelFormat) : Callbacks :=
  { c with pixel_format := format }

/-- `with_callbacks`: clone the slot contents and apply `f` to the
registered set if one is present. -/
def with_callbacks {R : Type} (slot : Option Callbacks) (f : Callbacks → R) : Option R :=
  slot.map f

/-- An invocation the router forwarded into the registered closures. -/
inductive Forwarded where
  | videoRefresh (data : List Nat) (width height pitch : Nat) (format : RetroPixelFormat)
  | audioSampleBatch (samples : List Int)
  | inputPoll
  deriving DecidableEq, Repr

/-- Result of `environment_callback`: the ABI return value, the pointee
after the call (the can-dupe command writes `true`, i.e. byte 1, through
the pointer), and the router slot after the call. -/
structure EnvOut where
  ret : Bool
  data : Option Nat
  slot : Option Callbacks

/-- Decode a `RetroPixelFormat` from its `u32` discriminant (the read
`*(data as *const RetroPixelFormat)`); only applied to pointees `0`/`1`
on the paths the code keeps. -/
def decodeFormat (v : Nat) : RetroPixelFormat :=
  if v = 0 then .Xrgb8888 else if v = 1 then .Rgb565 else ._0rgb1555

/-- `environment_callback`: recognizes `GET_CAN_DUPE` (writes `true`
through a non-null pointer and returns `true`) and `SET_PIXEL_FORMAT`
(accepts discriminants 0 and 1, recording the format in the registered
callback set when one is present); every other command returns `false`. -/
def environment_callback (slot : Option Callbacks) (cmd : Nat) (data : Option Nat) : EnvOut :=
  if cmd = RETRO_ENVIRONMENT_GET_CAN_DUPE then
    match data with
    | some _ => ⟨true, some 1, slot⟩
    | none => ⟨false, none, slot⟩
  else if cmd = RETRO_ENVIRONMENT_SET_PIXEL_FORMAT then
    match data with
    | none => ⟨false, none, slot⟩
    | some v =>
        if v = 0 ∨ v = 1 then
          ⟨true, some v, with_callbacks slot (fun c => c.set_pixel_format (decodeFormat v))⟩
        else
          ⟨false, some v, slot⟩
  else
    ⟨false, data, slot⟩

/-- `video_refresh_callback`: a null pointer or zero dimension is
ignored; otherwise the first `pitch * height` bytes are forwarded,
tagged with the registered set's negotiated pixel format. -/
def video_refresh_callback (slot : Option Callbacks) (data : Option (List Nat))
    (width height pitch : Nat) : List Forwarded :=
  match data with
  | none => []
  | some bytes =>
      if width = 0 ∨ height = 0 then []
      else
        let byte_len := pitch * height
        (with_callbacks slot (fun c =>
          Forwarded.videoRefresh (bytes.take byte_len) width height pitch c.pixel_format)).toList

/-- `audio_sample_callback`: funnels the two interleaved samples into
the registered batch closure. -/
def audio_sample_callback (slot : Option Callbacks) (left right : Int) : List Forwarded :=
  (with_callbacks slot (fun _c => Forwarded.audioSampleBatch [left, right])).toList

/-- `audio_sample_batch_callback`: a null pointer or zero frame count
returns 0; otherwise the `frames * 2` interleaved samples are forwarded
and `frames` is acknowledged. -/
def audio_sample_batch_callback (slot : Option Callbacks) (data : Option (List Int))
    (frames : Nat) : Nat × List Forwarded :=
  match data with
  | none => (0, [])
  | some samples =>
      if frames = 0 then (0, [])
      else
        (frames, (with_callbacks slot (fun _c =>
          Forwarded.audioSampleBatch (samples.take (frames * 2)))).toList)

/-- `input_poll_callback`: forwards to the registered poll closure. -/
def input_poll_callback (slot : Option Callbacks) : List Forwarded :=
  (with_callbacks slot (fun _c => Forwarded.inputPoll)).toList

/-- `input_state_callback`: forwards to the registered closure; with no
registrant the `unwrap_or(0)` default answers "not pressed". -/
def input_state_callback (slot : Option Callbacks) (port device index id : Nat) : Int :=
  (with_callbacks slot (fun c => c.input_state port device index id)).getD 0

/-! ## Session teardown (`impl Drop for LibretroCore`) -/

/-- The externally observable steps a `LibretroCore` teardown can take. -/
inductive TeardownEvent where
  | unloadGame
  | deinit
  | unregister
  | dropLibrary
  deriving DecidableEq, Repr

/-- The part of `LibretroCore`'s state that `Drop` consults. -/
structure CoreTeardownState where
  game_loaded : Bool

/-- `Drop for LibretroCore`: `self.unload_game()` (which invokes the
native unload only when a game is loaded), then `retro_deinit`; field
destruction then unmaps the native library. No operation on the
process-wide callback slot occurs, so the slot passes through
unchanged. -/
def drop_core (st : CoreTeardownState) (slot : Option Callbacks) :
    List TeardownEvent × Option Callbacks :=
  ((if st.game_loaded then [TeardownEvent.unloadGame] else []) ++
    [TeardownEvent.deinit, TeardownEvent.dropLibrary], slot)

/-! ## Session operations (`LibretroCore`, `playbyte_libretro/src/lib.rs`)

The native entry points reached through the resolved symbol table are
foreign code; each is modelled by the data the host observes of it: a
reported size, a success flag, and the bytes it leaves in a buffer
passed to it by pointer. -/

/-- The native core behaviour `LibretroCore::serialize` interacts with:
`retro_serialize_size`'s reported size, `retro_serialize`'s returned
success flag, and the byte the native call leaves at each offset of the
host-allocated buffer (offsets it does not write keep the 0 the host
put there). A write through a C pointer cannot change the buffer's
length. -/
structure SerializeABI where
  retro_serialize_size : Nat
  retro_serialize_ok : Bool
  retro_serialize_byte : Nat → Nat

/-- `LibretroCore::serialize`: query the size, allocate a buffer of
exactly that size, invoke the native serialize on it; on a `true`
return hand back the buffer, otherwise the `Serialize` error. -/
def LibretroCore.serialize (abi : SerializeABI) : Except LibretroError (List Nat) :=
  let size := abi.retro_serialize_size
  let buffer := (List.range size).map (fun i => abi.retro_serialize_byte i % 256)
  if abi.retro_serialize_ok then .ok buffer else .error .Serialize

/-- The fields of `LibretroCore` that `load_game` touches. -/
structure GameLoadState where
  game_loaded : Bool
  loaded_game : Option (List Nat)
  deriving DecidableEq, Repr

/-- `LibretroCore::load_game`. Its three fallible steps are modelled by
the host-observable outcome of each: `read` is the result of
`std::fs::read` (`none` = I/O failure), `pathOk` is whether
`CString::new` accepted the path bytes, and `nativeOk` is the native
`retro_load_game` return. Only after the native call succeeds are
`game_loaded` and the retained game image updated. -/
def LibretroCore.load_game (st : GameLoadState) (read : Option (List Nat))
    (pathOk nativeOk : Bool) : Except LibretroError Unit × GameLoadState :=
  match read with
  | none => (.error .LoadGame, st)
  | some data =>
      if pathOk = false then (.error .LoadGame, st)
      else if nativeOk = false then (.error .LoadGame, st)
      else (.ok (), { st with game_loaded := true, loaded_game := some data })

/-- The fps selection in `EmulatorRuntime::new`
(`playbyte_emulation/src/lib.rs`): keep the core-reported
`av_info.timing.fps` when it is strictly positive, else fall back to
60. The `f64` value is modelled as a rational; `EmulatorRuntime::fps()`
returns this cached value. -/
def EmulatorRuntime.fps (reported : ℚ) : ℚ :=
  if reported > 0 then reported else 60

/-! ## Runtime facade (`EmulatorRuntime`, `playbyte_emulation/src/lib.rs`)

For the save/restore round trip the opaque native core behind the FFI
boundary is a parameter: a state type `σ`, a `retro_run` step producing
the next state and the frames emitted through the video-refresh
callback during the call, a `retro_serialize` snapshot and a
`retro_unserialize` restore. The libretro save-state contract — the
contract this layer relies on, per the repository's determinism test —
is the hypothesis that restoring a snapshot reproduces the serialized
state exactly. The host-side wiring (`latest_frame` cell, `run_frame`,
`serialize`, `unserialize`) is embedded from the source. -/

/-- The state `EmulatorRuntime` holds that the determinism test
observes: the native core state and the latest-frame cell. -/
structure RuntimeState (σ Frame : Type) where
  core : σ
  latest_frame : Option Frame
  deriving DecidableEq, Repr

section Runtime

variable {σ Frame : Type}

/-- The host video callback installed by `EmulatorRuntime::new`: each
video-refresh invocation overwrites the latest-frame cell. -/
def store_frames (latest : Option Frame) (emitted : List Frame) : Option Frame :=
  emitted.foldl (fun _cur f => some f) latest

/-- `EmulatorRuntime::run_frame`: `retro_run` advances the native core
and invokes the video-refresh callback once per emitted frame. -/
def run_frame (step : σ → σ × List Frame) (st : RuntimeState σ Frame) : RuntimeState σ Frame :=
  ⟨(step st.core).1, store_frames st.latest_frame (step st.core).2⟩

/-- Running `n` successive `run_frame` calls. -/
def run_frames (step : σ → σ × List Frame) : Nat → RuntimeState σ Frame → RuntimeState σ Frame
  | 0, st => st
  | n + 1, st => run_frames step n (run_frame step st)

/-- `EmulatorRuntime::serialize` delegates to the core's serialize. -/
def runtime_serialize (ser : σ → List Nat) (st : RuntimeState σ Frame) : List Nat :=
  ser st.core

/-- `EmulatorRuntime::unserialize` delegates to the core's unserialize;
the latest-frame cell is untouched. -/
def runtime_unserialize (unser : σ → List Nat → σ) (st : RuntimeState σ Frame)
    (blob : List Nat) : RuntimeState σ Frame :=
  ⟨unser st.core blob, st.latest_frame⟩

/-- The latest-frame cell after a burst of refresh callbacks is the
last emitted frame if there is one, else the prior cell contents. -/
theorem store_frames_or (e : List Frame) :
    ∀ l : Option Frame, store_frames l e = (store_frames none e).or l := by
  induction e with
  | nil => intro l; rfl
  | cons f e ih =>
      intro l
      have h1 : store_frames l (f :: e) = store_frames (some f) e := rfl
      have h2 : store_frames none (f :: e) = store_frames (some f) e := rfl
      rw [h1, h2, ih (some f)]
      cases h : store_frames none e <;> simp

/-- Splitting a run: the final core state ignores the initial
latest-frame cell, and the final cell is the run's own last emitted
frame when there is one, else the initial cell contents. -/
theorem run_frames_split (step : σ → σ × List Frame) :
    ∀ (M : Nat) (st : RuntimeState σ Frame),
      run_frames step M st =
        ⟨(run_frames step M ⟨st.core, none⟩).core,
          ((run_frames step M ⟨st.core, none⟩).latest_frame).or st.latest_frame⟩ := by
  intro M
  induction M with
  | zero =>
      intro st
      show st = ⟨st.core, Option.none.or st.latest_frame⟩
      cases st with
      | mk c l => rfl
  | succ M ih =>
      intro st
      show run_frames step M (run_frame step st) = _
      rw [ih (run_frame step st)]
      have hrhs : run_frames step (M + 1) ⟨st.core, none⟩ =
          run_frames step M (run_frame step ⟨st.core, none⟩) := rfl
      rw [hrhs, ih (run_frame step ⟨st.core, none⟩)]
      simp only [run_frame]
      rw [store_frames_or (step st.core).2 st.latest_frame]
      cases hL : (run_frames step M
          ⟨(step st.core).1, none⟩).latest_frame <;>
        cases hS : store_frames none (step st.core).2 <;> simp

end Runtime

/-! ## Pixel conversion (`convert_frame_to_rgba`, `playbyte_app/src/main.rs`)

The source iterates `y` over rows and `x` over columns, writing the
four RGBA bytes of pixel `(x, y)` at output offset
`(y * width + x) * 4`; since those writes fill the preallocated output
exactly once each, in row-major order, the output equals the row-major
concatenation of the per-pixel quadruples, which is how it is built
here. Within a row the source takes the slice
`data[y * pitch .. y * pitch + width * bytes_per_pixel]` and indexes it
at `x * bytes_per_pixel + k`; on the paths that reach it (guards
passed) this equals `data.getD (y * pitch + x * bytes_per_pixel + k) 0`
used here. -/

/-- `VideoFrame` (`playbyte_libretro/src/lib.rs`): dimensions, row
pitch in bytes, format tag, and the copied-out pixel bytes. -/
structure VideoFrame where
  width : Nat
  height : Nat
  pitch : Nat
  pixel_format : RetroPixelFormat
  data : List Nat
  deriving DecidableEq, Repr

/-- Bytes per pixel of each format, as matched in the source. -/
def bytes_per_pixel : RetroPixelFormat → Nat
  | .Xrgb8888 => 4
  | .Rgb565 => 2
  | ._0rgb1555 => 2

/-- 5-bit channel replication `(v << 3) | (v >> 2)`. -/
def expand5 (v : Nat) : Nat := (v <<< 3) ||| (v >>> 2)

/-- 6-bit channel replication `(v << 2) | (v >> 4)`. -/
def expand6 (v : Nat) : Nat := (v <<< 2) ||| (v >>> 4)

/-- The four RGBA bytes the conversion loop writes for pixel `(x, y)`:
`Xrgb8888` reads bytes B, G, R (byte 3 ignored) and emits R, G, B, 255;
the 16-bit formats read a little-endian value and expand the masked
channels. -/
def pixel_rgba (frame : VideoFrame) (y x : Nat) : List Nat :=
  match frame.pixel_format with
  | .Xrgb8888 =>
      let src := y * frame.pitch + x * 4
      [frame.data.getD (src + 2) 0, frame.data.getD (src + 1) 0, frame.data.getD src 0, 255]
  | .Rgb565 =>
      let src := y * frame.pitch + x * 2
      let value := frame.data.getD src 0 + 256 * frame.data.getD (src + 1) 0
      [expand5 ((value >>> 11) &&& 31), expand6 ((value >>> 5) &&& 63),
        expand5 (value &&& 31), 255]
  | ._0rgb1555 =>
      let src := y * frame.pitch + x * 2
      let value := frame.data.getD src 0 + 256 * frame.data.getD (src + 1) 0
      [expand5 ((value >>> 10) &&& 31), expand5 ((value >>> 5) &&& 31),
        expand5 (value &&& 31), 255]

/-- `convert_frame_to_rgba`: empty output for a zero dimension; an
all-zero `width * height * 4` output when the pitch is smaller than a
row's pixel bytes (`min_pitch`, inlined here) or the data is shorter
than `pitch * height`; otherwise the row-major conversion. -/
def convert_frame_to_rgba (frame : VideoFrame) : List Nat :=
  if frame.width = 0 ∨ frame.height = 0 then []
  else if frame.pitch < frame.width * bytes_per_pixel frame.pixel_format then
    List.replicate (frame.width * frame.height * 4) 0
  else if frame.data.length < frame.pitch * frame.height then
    List.replicate (frame.width * frame.height * 4) 0
  else
    (List.range frame.height).flatMap fun y =>
      (List.range frame.width).flatMap fun x => pixel_rgba frame y x

theorem pixel_rgba_length (frame : VideoFrame) (y x : Nat) :
    (pixel_rgba frame y x).length = 4 := by
  rcases frame with ⟨w, h, p, fmt, data⟩
  cases fmt <;> rfl

/-- Length of a concatenation of uniformly sized blocks. -/
theorem bind_length_uniform {α : Type} (f : α → List Nat) (k : Nat) :
    ∀ l : List α, (∀ a ∈ l, (f a).length = k) → (l.flatMap f).length = l.length * k := by
  intro l
  induction l with
  | nil => intro _; simp
  | cons a t ih =>
      intro h
      have ha : (f a).length = k := h a (by simp)
      have ht := ih (fun b hb => h b (by simp [hb]))
      simp only [List.flatMap_cons, List.length_append, List.length_cons, ha, ht]
      ring

/-- Dropping `i` whole blocks from a concatenation of uniformly sized
blocks lands at the start of block `i`. -/
theorem bind_drop_extract {α : Type} (f : α → List Nat) (k : Nat) (d : α) :
    ∀ (l : List α) (i : Nat), (∀ a ∈ l, (f a).length = k) → i < l.length →
      (l.flatMap f).drop (i * k) = f (l.getD i d) ++ (l.drop (i + 1)).flatMap f := by
  intro l
  induction l with
  | nil => intro i _ hi; simp at hi
  | cons a t ih =>
      intro i h hi
      cases i with
      | zero => simp
      | succ i =>
          have ha : (f a).length = k := h a (by simp)
          have harith : (i + 1) * k = (f a).length + i * k := by rw [ha]; ring
          rw [List.flatMap_cons, harith, ← List.drop_drop, List.drop_left]
          have ht : i < t.length := by simpa using Nat.lt_of_succ_lt_succ hi
          rw [ih i (fun b hb => h b (by simp [hb])) ht]
          rfl

end Playbyte

namespace PlaybyteClaims

open Playbyte Playbyte.AudioRingBuffer

/-- C3: for every `AudioRingBuffer` of capacity `C` (at least 1):
pushing any sequence of samples into a fresh buffer retains exactly the
most recent `min(total pushed, C)` samples in order; popping into an
output slice of length `k` removes and returns the oldest available
samples in order and writes `0` into every slot beyond the number
available; and pushing `n` samples with fewer than `C` total buffered
then popping everything loses no samples. -/
theorem audio_ring_buffer_spec (C : Nat) (hC : 1 ≤ C) :
    (∀ s : List Int, (push_samples ⟨C, []⟩ s).buf = s.drop (s.length - C)) ∧
    (∀ (rb : AudioRingBuffer) (k : Nat),
      (pop_samples rb k).1 = rb.buf.take k ++ List.replicate (k - rb.buf.length) 0 ∧
      (pop_samples rb k).2.buf = rb.buf.drop k) ∧
    (∀ (rb : AudioRingBuffer) (s : List Int), rb.capacity = C →
      rb.buf.length + s.length ≤ C →
      (pop_samples (push_samples rb s) (rb.buf.length + s.length)).1 = rb.buf ++ s) := by
  refine ⟨?_, ?_, ?_⟩
  · intro s
    have h := foldl_pushOne C hC s []
    simp only [push_samples, List.nil_append] at h ⊢
    rw [h (by simp), List.rtake]
  · intro rb k
    constructor
    · simp [pop_samples, popLoop_eq]
    · simp [pop_samples, popLoop_eq]
  · intro rb s hcap hlen
    have hpush : (push_samples rb s).buf = rb.buf ++ s := by
      simp only [push_samples]
      rw [hcap, foldl_pushOne C hC s rb.buf (by omega), List.rtake,
        Nat.sub_eq_zero_of_le (by simp; omega), List.drop_zero]
    simp only [pop_samples, popLoop_eq, hpush]
    rw [List.take_of_length_le (by simp), Nat.sub_eq_zero_of_le (by simp)]
    simp

/-- Witness for C3: capacity 2, pushing `[1, 2, 3]` keeps `[2, 3]`;
popping 3 from a buffer holding `[7, 8]` yields `[7, 8, 0]` and empties
it; pushing `[5, 6]` into an empty capacity-2 buffer then popping 2
returns `[5, 6]`. -/
theorem audio_ring_buffer_spec_witness :
    (push_samples ⟨2, []⟩ [1, 2, 3]).buf = [1, 2, 3].drop ([1, 2, 3].length - 2) ∧
    ((pop_samples ⟨2, [7, 8]⟩ 3).1 = [7, 8].take 3 ++ List.replicate (3 - [7, 8].length) 0 ∧
      (pop_samples ⟨2, [7, 8]⟩ 3).2.buf = [7, 8].drop 3) ∧
    (pop_samples (push_samples ⟨2, []⟩ [5, 6])
        (([] : List Int).length + [5, 6].length)).1 = ([] : List Int) ++ [5, 6] := by
  have h := audio_ring_buffer_spec 2 (by norm_num)
  exact ⟨h.1 [1, 2, 3], h.2.1 ⟨2, [7, 8]⟩ 3, h.2.2 ⟨2, []⟩ [5, 6] rfl (by simp)⟩

/-- Counterexample for C3 as stated for every capacity: with capacity 0
the length-equals-capacity guard in `push_samples` only fires while the
deque is empty, so pushing two samples retains both of them, not the
most recent `min(2, 0) = 0` samples. -/
theorem audio_ring_buffer_cap_zero_cex :
    ¬ ((push_samples ⟨0, []⟩ [1, 2]).buf = [1, 2].drop ([1, 2].length - 0)) := by
  decide

/-- Counterexample for C2 as stated: dropping a `LibretroCore` with a
game loaded emits no unregister step at all, and the process-wide slot
still holds the torn-down session's callbacks afterwards. -/
theorem teardown_no_unregister_cex :
    TeardownEvent.unregister ∉ (drop_core ⟨true⟩ (some (Callbacks.new fun _ _ _ _ => 0))).1 ∧
    (drop_core ⟨true⟩ (some (Callbacks.new fun _ _ _ _ => 0))).2 =
      some (Callbacks.new fun _ _ _ _ => 0) :=
  ⟨by decide, rfl⟩

/-- C2 (amended): session teardown performs, in order, unload-the-game
(only if one is loaded) then the native deinit, and then drops the
library handle; it never unregisters the active callback set from the
process-wide router slot, which continues to resolve to the torn-down
session's callbacks until a later session replaces it. -/
theorem drop_core_spec (st : CoreTeardownState) (slot : Option Callbacks) :
    (drop_core st slot).1 =
      (if st.game_loaded then [TeardownEvent.unloadGame] else []) ++
        [TeardownEvent.deinit, TeardownEvent.dropLibrary] ∧
    TeardownEvent.unregister ∉ (drop_core st slot).1 ∧
    (drop_core st slot).2 = slot := by
  refine ⟨rfl, ?_, rfl⟩
  rcases st with ⟨gl⟩
  cases gl <;> simp [drop_core]

/-- Counterexample for C4 as stated: a get-can-dupe call whose data
pointer is null returns `false`, not `true`. -/
theorem env_can_dupe_null_cex :
    (environment_callback (some (Callbacks.new fun _ _ _ _ => 0))
      RETRO_ENVIRONMENT_GET_CAN_DUPE none).ret = false := rfl

/-- C4 (amended): the environment shim recognizes exactly two commands.
A get-can-dupe call with a non-null pointer writes `true` (byte 1) and
returns `true` (a null pointer gets `false`); a set-pixel-format call
with a non-null pointer returns `true` iff the supplied discriminant is
`Xrgb8888` (0) or `Rgb565` (1), records the decoded format in the
registered callback set exactly in that case, and always rejects
`_0rgb1555` (2); a null pointer gets `false`; every other command
returns `false`. -/
theorem environment_callback_spec (slot : Option Callbacks) (cmd v : Nat) (cbs : Callbacks) :
    ((environment_callback slot RETRO_ENVIRONMENT_GET_CAN_DUPE (some v)).ret = true ∧
      (environment_callback slot RETRO_ENVIRONMENT_GET_CAN_DUPE (some v)).data = some 1) ∧
    (environment_callback slot RETRO_ENVIRONMENT_GET_CAN_DUPE none).ret = false ∧
    ((environment_callback slot RETRO_ENVIRONMENT_SET_PIXEL_FORMAT (some v)).ret = true ↔
      (v = 0 ∨ v = 1)) ∧
    ((environment_callback (some cbs) RETRO_ENVIRONMENT_SET_PIXEL_FORMAT (some v)).slot =
      if v = 0 ∨ v = 1 then some (cbs.set_pixel_format (decodeFormat v)) else some cbs) ∧
    (environment_callback slot RETRO_ENVIRONMENT_SET_PIXEL_FORMAT (some 2)).ret = false ∧
    (environment_callback slot RETRO_ENVIRONMENT_SET_PIXEL_FORMAT none).ret = false ∧
    (cmd ≠ RETRO_ENVIRONMENT_GET_CAN_DUPE → cmd ≠ RETRO_ENVIRONMENT_SET_PIXEL_FORMAT →
      ∀ d : Option Nat, (environment_callback slot cmd d).ret = false) := by
  refine ⟨⟨rfl, rfl⟩, rfl, ?_, ?_, rfl, rfl, ?_⟩
  · by_cases hv : v = 0 ∨ v = 1 <;>
      simp [environment_callback, RETRO_ENVIRONMENT_GET_CAN_DUPE,
        RETRO_ENVIRONMENT_SET_PIXEL_FORMAT, hv]
  · by_cases hv : v = 0 ∨ v = 1 <;>
      simp [environment_callback, RETRO_ENVIRONMENT_GET_CAN_DUPE,
        RETRO_ENVIRONMENT_SET_PIXEL_FORMAT, hv, with_callbacks]
  · intro h1 h2 d
    rw [environment_callback.eq_def, if_neg h1, if_neg h2]

/-- Witness for C4 (amended): an unrecognized command (7) returns
`false`. -/
theorem environment_callback_spec_witness :
    (environment_callback (some (Callbacks.new fun _ _ _ _ => 0)) 7 (some 5)).ret = false :=
  (environment_callback_spec (some (Callbacks.new fun _ _ _ _ => 0)) 7 5
    (Callbacks.new fun _ _ _ _ => 0)).2.2.2.2.2.2 (by decide) (by decide) (some 5)

/-- Counterexample for C5 as stated: with no registrant, a
set-pixel-format call carrying a supported format (Xrgb8888,
discriminant 0) returns `true`, not `false`. -/
theorem no_registrant_pixel_format_cex :
    (environment_callback none RETRO_ENVIRONMENT_SET_PIXEL_FORMAT (some 0)).ret = true := rfl

/-- C5 (amended): every router shim invoked with no registered callback
set is total (never panics) and degrades safely: the environment shim
still answers `true` to a non-null get-can-dupe, still reports whether
a supplied pixel format is supported (without recording it anywhere —
the slot stays empty), and returns `false` for every other command;
the input-state shim returns 0; and the video-refresh, audio-sample,
audio-sample-batch and input-poll shims forward nothing. -/
theorem no_registrant_defaults (cmd v port device index id : Nat)
    (bytes : Option (List Nat)) (samples : Option (List Int))
    (width height pitch frames : Nat) (left right : Int) :
    (environment_callback none RETRO_ENVIRONMENT_GET_CAN_DUPE (some v)).ret = true ∧
    ((environment_callback none RETRO_ENVIRONMENT_SET_PIXEL_FORMAT (some v)).ret = true ↔
      (v = 0 ∨ v = 1)) ∧
    (environment_callback none RETRO_ENVIRONMENT_SET_PIXEL_FORMAT (some v)).slot = none ∧
    (cmd ≠ RETRO_ENVIRONMENT_GET_CAN_DUPE → cmd ≠ RETRO_ENVIRONMENT_SET_PIXEL_FORMAT →
      ∀ d : Option Nat, (environment_callback none cmd d).ret = false) ∧
    input_state_callback none port device index id = 0 ∧
    video_refresh_callback none bytes width height pitch = [] ∧
    audio_sample_callback none left right = [] ∧
    (audio_sample_batch_callback none samples frames).2 = [] ∧
    input_poll_callback none = [] := by
  refine ⟨rfl, ?_, ?_, ?_, rfl, ?_, rfl, ?_, rfl⟩
  · by_cases hv : v = 0 ∨ v = 1 <;>
      simp [environment_callback, RETRO_ENVIRONMENT_GET_CAN_DUPE,
        RETRO_ENVIRONMENT_SET_PIXEL_FORMAT, hv]
  · by_cases hv : v = 0 ∨ v = 1 <;>
      simp [environment_callback, RETRO_ENVIRONMENT_GET_CAN_DUPE,
        RETRO_ENVIRONMENT_SET_PIXEL_FORMAT, hv, with_callbacks]
  · intro h1 h2 d
    rw [environment_callback.eq_def, if_neg h1, if_neg h2]
  · cases bytes with
    | none => rfl
    | some b =>
        by_cases hwh : width = 0 ∨ height = 0 <;>
          simp [video_refresh_callback, hwh, with_callbacks]
  · cases samples with
    | none => rfl
    | some s =>
        by_cases hf : frames = 0 <;>
          simp [audio_sample_batch_callback, hf, with_callbacks]

/-- Witness for C5 (amended): concrete instantiation with command 9 and
the pixel format Rgb565 (discriminant 1). -/
theorem no_registrant_defaults_witness :
    (environment_callback none RETRO_ENVIRONMENT_GET_CAN_DUPE (some 1)).ret = true ∧
    ((environment_callback none RETRO_ENVIRONMENT_SET_PIXEL_FORMAT (some 1)).ret = true ↔
      ((1 : Nat) = 0 ∨ (1 : Nat) = 1)) ∧
    (environment_callback none RETRO_ENVIRONMENT_SET_PIXEL_FORMAT (some 1)).slot = none ∧
    (9 ≠ RETRO_ENVIRONMENT_GET_CAN_DUPE → 9 ≠ RETRO_ENVIRONMENT_SET_PIXEL_FORMAT →
      ∀ d : Option Nat, (environment_callback none 9 d).ret = false) ∧
    input_state_callback none 0 1 0 8 = 0 ∧
    video_refresh_callback none (some [1, 2, 3, 4]) 1 1 4 = [] ∧
    audio_sample_callback none 5 (-5) = [] ∧
    (audio_sample_batch_callback none (some [5, -5]) 1).2 = [] ∧
    input_poll_callback none = [] :=
  no_registrant_defaults 9 1 0 1 0 8 (some [1, 2, 3, 4]) (some [5, -5]) 1 1 4 1 5 (-5)

/-- C6: `serialize()` queries the required size, allocates a buffer of
exactly that size and invokes the native serialize on it; a `true`
native return yields a byte vector whose length is exactly the queried
size, and a `false` return yields the distinct `Serialize` error, never
a buffer. -/
theorem serialize_spec (abi : SerializeABI) :
    (abi.retro_serialize_ok = true →
      ∃ buf : List Nat, LibretroCore.serialize abi = .ok buf ∧
        buf.length = abi.retro_serialize_size) ∧
    (abi.retro_serialize_ok = false →
      LibretroCore.serialize abi = .error LibretroError.Serialize) := by
  constructor
  · intro hok
    refine ⟨(List.range abi.retro_serialize_size).map
      (fun i => abi.retro_serialize_byte i % 256), ?_, by simp⟩
    simp [LibretroCore.serialize, hok]
  · intro hfail
    simp [LibretroCore.serialize, hfail]

/-- Witness for C6: a core reporting size 3 whose serialize succeeds
yields a 3-byte buffer; the same core failing yields the `Serialize`
error. -/
theorem serialize_spec_witness :
    (∃ buf : List Nat, LibretroCore.serialize ⟨3, true, fun i => i⟩ = .ok buf ∧
      buf.length = 3) ∧
    LibretroCore.serialize ⟨3, false, fun i => i⟩ = .error LibretroError.Serialize :=
  ⟨(serialize_spec ⟨3, true, fun i => i⟩).1 rfl, (serialize_spec ⟨3, false, fun i => i⟩).2 rfl⟩

/-- C7: a `load_game` call that fails at any of its three fallible
steps (file read, path conversion, native load) leaves a session that
was in the `Initialized` state unchanged — `game_loaded` stays `false`
and no game image is retained — and reports the distinct `LoadGame`
error (in particular not the library-load error); only on success are
`game_loaded` set and the image bytes retained. -/
theorem load_game_spec (st : GameLoadState) (read : Option (List Nat))
    (pathOk nativeOk : Bool) (hgl : st.game_loaded = false) (him : st.loaded_game = none) :
    ((read = none ∨ pathOk = false ∨ nativeOk = false) →
      (LibretroCore.load_game st read pathOk nativeOk).1 = .error LibretroError.LoadGame ∧
      (LibretroCore.load_game st read pathOk nativeOk).1 ≠ .error LibretroError.LoadLibrary ∧
      (LibretroCore.load_game st read pathOk nativeOk).2.game_loaded = false ∧
      (LibretroCore.load_game st read pathOk nativeOk).2.loaded_game = none) ∧
    (∀ data : List Nat, read = some data → pathOk = true → nativeOk = true →
      LibretroCore.load_game st read pathOk nativeOk = (.ok (), ⟨true, some data⟩)) := by
  constructor
  · intro hfail
    have : (LibretroCore.load_game st read pathOk nativeOk).1 = .error LibretroError.LoadGame ∧
        (LibretroCore.load_game st read pathOk nativeOk).2 = st := by
      rcases hfail with h | h | h
      · subst h; exact ⟨rfl, rfl⟩
      · cases read with
        | none => exact ⟨rfl, rfl⟩
        | some data => subst h; simp [LibretroCore.load_game]
      · cases read with
        | none => exact ⟨rfl, rfl⟩
        | some data =>
            subst h
            by_cases hp : pathOk = false <;> simp [LibretroCore.load_game, hp]
    refine ⟨this.1, ?_, by rw [this.2]; exact hgl, by rw [this.2]; exact him⟩
    rw [this.1]
    intro hcontra
    exact LibretroError.noConfusion (Except.error.inj hcontra)
  · intro data hread hp hn
    subst hread hp hn
    simp [LibretroCore.load_game]

/-- Witness for C7: from the `Initialized` state, a native-load refusal
leaves the state unchanged with a `LoadGame` error, and a successful
load retains the image `[9, 9]`. -/
theorem load_game_spec_witness :
    ((LibretroCore.load_game ⟨false, none⟩ (some [9, 9]) true false).1 =
        .error LibretroError.LoadGame ∧
      (LibretroCore.load_game ⟨false, none⟩ (some [9, 9]) true false).1 ≠
        .error LibretroError.LoadLibrary ∧
      (LibretroCore.load_game ⟨false, none⟩ (some [9, 9]) true false).2.game_loaded = false ∧
      (LibretroCore.load_game ⟨false, none⟩ (some [9, 9]) true false).2.loaded_game = none) ∧
    LibretroCore.load_game ⟨false, none⟩ (some [9, 9]) true true = (.ok (), ⟨true, some [9, 9]⟩) :=
  ⟨(load_game_spec ⟨false, none⟩ (some [9, 9]) true false rfl rfl).1 (Or.inr (Or.inr rfl)),
    (load_game_spec ⟨false, none⟩ (some [9, 9]) true true rfl rfl).2 [9, 9] rfl rfl rfl⟩

/-- C1: hosted by `EmulatorRuntime`, for every core satisfying the
libretro save-state contract (restoring a serialized snapshot
reproduces the serialized core state exactly — the contract the layer
relies on and its determinism test exercises): running `N` frames,
serializing, running `M` more frames and hashing the latest frame,
then restoring the saved blob and running the same `M` frames again,
leaves an identical latest frame and hence an identical hash. -/
theorem save_restore_determinism {σ Frame : Type} (step : σ → σ × List Frame)
    (ser : σ → List Nat) (unser : σ → List Nat → σ) (hash : Frame → Nat)
    (hcontract : ∀ t s : σ, unser t (ser s) = s)
    (st0 : RuntimeState σ Frame) (N M : Nat) :
    (run_frames step M (runtime_unserialize unser
        (run_frames step M (run_frames step N st0))
        (runtime_serialize ser (run_frames step N st0)))).latest_frame =
      (run_frames step M (run_frames step N st0)).latest_frame ∧
    Option.map hash (run_frames step M (runtime_unserialize unser
        (run_frames step M (run_frames step N st0))
        (runtime_serialize ser (run_frames step N st0)))).latest_frame =
      Option.map hash (run_frames step M (run_frames step N st0)).latest_frame := by
  have hu : runtime_unserialize unser (run_frames step M (run_frames step N st0))
      (runtime_serialize ser (run_frames step N st0)) =
      ⟨(run_frames step N st0).core,
        (run_frames step M (run_frames step N st0)).latest_frame⟩ := by
    simp [runtime_unserialize, runtime_serialize, hcontract]
  have key : (run_frames step M (runtime_unserialize unser
      (run_frames step M (run_frames step N st0))
      (runtime_serialize ser (run_frames step N st0)))).latest_frame =
      (run_frames step M (run_frames step N st0)).latest_frame := by
    rw [hu, run_frames_split step M ⟨(run_frames step N st0).core,
      (run_frames step M (run_frames step N st0)).latest_frame⟩,
      run_frames_split step M (run_frames step N st0)]
    dsimp only
    cases (run_frames step M
        ⟨(run_frames step N st0).core, none⟩).latest_frame <;> simp
  exact ⟨key, by rw [key]⟩

/-- A two-line toy core used to instantiate the round-trip theorem:
state is a counter, each frame emits the counter as its "frame". -/
def stepW (s : Nat) : Nat × List Nat := (s + 1, [s])

def serW (s : Nat) : List Nat := [s]

def unserW (_t : Nat) (blob : List Nat) : Nat := blob.headD 0

/-- Witness for C1: the toy counter core satisfies the save-state
contract, and with `N = 2`, `M = 3` the two continuations leave the
same latest frame. -/
theorem save_restore_determinism_witness :
    (run_frames stepW 3 (runtime_unserialize unserW
        (run_frames stepW 3 (run_frames stepW 2 ⟨0, none⟩))
        (runtime_serialize serW (run_frames stepW 2 ⟨0, none⟩)))).latest_frame =
      (run_frames stepW 3 (run_frames stepW 2 ⟨0, none⟩)).latest_frame :=
  (save_restore_determinism stepW serW unserW id (fun _ _ => rfl) ⟨0, none⟩ 2 3).1

/-- C9: the runtime keeps the core-reported fps when it is strictly
positive and falls back to the default 60 when the report is zero or
negative. -/
theorem fps_spec (reported : ℚ) :
    (0 < reported → EmulatorRuntime.fps reported = reported) ∧
    (reported ≤ 0 → EmulatorRuntime.fps reported = 60) := by
  constructor
  · intro h
    simp [EmulatorRuntime.fps, h]
  · intro h
    simp [EmulatorRuntime.fps, not_lt.mpr h]

/-- Witness for C9: a core reporting 50.28 fps keeps it; a core
reporting 0 falls back to 60. -/
theorem fps_spec_witness :
    EmulatorRuntime.fps (1257 / 25) = 1257 / 25 ∧ EmulatorRuntime.fps 0 = 60 :=
  ⟨(fps_spec (1257 / 25)).1 (by norm_num), (fps_spec 0).2 le_rfl⟩

/-- C8: on a frame that passes the guards, the conversion produces a
`width * height * 4` RGBA buffer; the four bytes of output pixel
`(x, y)` are read from the input row at the frame's pitch (so padding
beyond `width * bytes_per_pixel` is skipped) and unpacked per format:
`Xrgb8888` reads bytes B, G, R and emits R, G, B, alpha 255; the
little-endian 16-bit formats mask out their channels and replicate
bits, `expand5 v = (v <<< 3) ||| (v >>> 2)` and
`expand6 v = (v <<< 2) ||| (v >>> 4)`, so the maximal 5-bit value 31
expands to 255, not 248. -/
theorem convert_frame_to_rgba_spec (frame : VideoFrame)
    (hw : 0 < frame.width) (hh : 0 < frame.height)
    (hpitch : frame.width * bytes_per_pixel frame.pixel_format ≤ frame.pitch)
    (hdata : frame.pitch * frame.height ≤ frame.data.length) :
    (convert_frame_to_rgba frame).length = frame.width * frame.height * 4 ∧
    expand5 31 = 255 ∧
    ∀ y x : Nat, y < frame.height → x < frame.width →
      ((convert_frame_to_rgba frame).drop ((y * frame.width + x) * 4)).take 4 =
        match frame.pixel_format with
        | .Xrgb8888 =>
            [frame.data.getD (y * frame.pitch + x * 4 + 2) 0,
              frame.data.getD (y * frame.pitch + x * 4 + 1) 0,
              frame.data.getD (y * frame.pitch + x * 4) 0, 255]
        | .Rgb565 =>
            [expand5 (((frame.data.getD (y * frame.pitch + x * 2) 0 +
                256 * frame.data.getD (y * frame.pitch + x * 2 + 1) 0) >>> 11) &&& 31),
              expand6 (((frame.data.getD (y * frame.pitch + x * 2) 0 +
                256 * frame.data.getD (y * frame.pitch + x * 2 + 1) 0) >>> 5) &&& 63),
              expand5 ((frame.data.getD (y * frame.pitch + x * 2) 0 +
                256 * frame.data.getD (y * frame.pitch + x * 2 + 1) 0) &&& 31), 255]
        | ._0rgb1555 =>
            [expand5 (((frame.data.getD (y * frame.pitch + x * 2) 0 +
                256 * frame.data.getD (y * frame.pitch + x * 2 + 1) 0) >>> 10) &&& 31),
              expand5 (((frame.data.getD (y * frame.pitch + x * 2) 0 +
                256 * frame.data.getD (y * frame.pitch + x * 2 + 1) 0) >>> 5) &&& 31),
              expand5 ((frame.data.getD (y * frame.pitch + x * 2) 0 +
                256 * frame.data.getD (y * frame.pitch + x * 2 + 1) 0) &&& 31), 255] := by
  have hg1 : ¬(frame.width = 0 ∨ frame.height = 0) := by rintro (h | h) <;> omega
  have hg2 : ¬(frame.pitch < frame.width * bytes_per_pixel frame.pixel_format) := by omega
  have hg3 : ¬(frame.data.length < frame.pitch * frame.height) := by omega
  have hbody : convert_frame_to_rgba frame =
      (List.range frame.height).flatMap fun y =>
        (List.range frame.width).flatMap fun x => pixel_rgba frame y x := by
    simp only [convert_frame_to_rgba]
    rw [if_neg hg1, if_neg hg2, if_neg hg3]
  have hrow : ∀ y ∈ List.range frame.height,
      ((fun y => (List.range frame.width).flatMap fun x => pixel_rgba frame y x) y).length =
        frame.width * 4 := by
    intro y _
    rw [bind_length_uniform (fun x => pixel_rgba frame y x) 4 (List.range frame.width)
      (fun a _ => pixel_rgba_length frame y a), List.length_range]
  refine ⟨?_, by decide, ?_⟩
  · rw [hbody, bind_length_uniform _ (frame.width * 4) _ hrow, List.length_range]
    ring
  · intro y x hy hx
    have hyr : y < (List.range frame.height).length := by simpa using hy
    have hxr : x < (List.range frame.width).length := by simpa using hx
    have hgy : (List.range frame.height).getD y 0 = y := by
      rw [List.getD_eq_getElem _ _ hyr, List.getElem_range]
    have hgx : (List.range frame.width).getD x 0 = x := by
      rw [List.getD_eq_getElem _ _ hxr, List.getElem_range]
    have harith : (y * frame.width + x) * 4 = y * (frame.width * 4) + x * 4 := by ring
    rw [hbody, harith, ← List.drop_drop,
      bind_drop_extract _ (frame.width * 4) 0 _ y hrow hyr, hgy]
    have hle : x * 4 ≤ ((List.range frame.width).flatMap fun x => pixel_rgba frame y x).length := by
      rw [bind_length_uniform (fun x => pixel_rgba frame y x) 4 (List.range frame.width)
        (fun a _ => pixel_rgba_length frame y a), List.length_range]
      exact Nat.mul_le_mul_right 4 (Nat.le_of_lt hx)
    rw [List.drop_append_of_le_length hle,
      bind_drop_extract _ 4 0 _ x (fun a _ => pixel_rgba_length frame y a) hxr, hgx,
      List.append_assoc,
      List.take_append_of_le_length (by rw [pixel_rgba_length]),
      List.take_of_length_le (by rw [pixel_rgba_length])]
    rcases frame with ⟨w, h, p, fmt, data⟩
    cases fmt <;> rfl

/-- Witness for C8: a 2x2 `Rgb565` frame with pitch 6 (two padding
bytes per row). Pixel `(1, 1)` holds the little-endian value `0xF800`
(red channel 31), which converts to pure red with full brightness:
`[255, 0, 0, 255]`. -/
theorem convert_frame_to_rgba_spec_witness :
    (convert_frame_to_rgba
        ⟨2, 2, 6, .Rgb565, [0, 0, 255, 255, 9, 9, 31, 0, 0, 248, 7, 7]⟩).length = 2 * 2 * 4 ∧
    ((convert_frame_to_rgba
        ⟨2, 2, 6, .Rgb565, [0, 0, 255, 255, 9, 9, 31, 0, 0, 248, 7, 7]⟩).drop
      ((1 * 2 + 1) * 4)).take 4 = [255, 0, 0, 255] := by
  have h := convert_frame_to_rgba_spec
    ⟨2, 2, 6, .Rgb565, [0, 0, 255, 255, 9, 9, 31, 0, 0, 248, 7, 7]⟩
    (by norm_num) (by norm_num) (by simp [bytes_per_pixel]) (by norm_num)
  exact ⟨h.1, (h.2.2 1 1 (by norm_num) (by norm_num)).trans (by decide)⟩

/-- C10: a frame with a zero dimension converts to the empty buffer; a
frame whose pitch is smaller than a row's pixel bytes, or whose data is
shorter than `pitch * height`, converts to an all-zero
`width * height * 4` buffer without touching the pixel data. -/
theorem convert_frame_degenerate_spec (frame : VideoFrame) :
    ((frame.width = 0 ∨ frame.height = 0) → convert_frame_to_rgba frame = []) ∧
    (0 < frame.width → 0 < frame.height →
      frame.pitch < frame.width * bytes_per_pixel frame.pixel_format →
      convert_frame_to_rgba frame = List.replicate (frame.width * frame.height * 4) 0) ∧
    (0 < frame.width → 0 < frame.height →
      frame.width * bytes_per_pixel frame.pixel_format ≤ frame.pitch →
      frame.data.length < frame.pitch * frame.height →
      convert_frame_to_rgba frame = List.replicate (frame.width * frame.height * 4) 0) := by
  refine ⟨?_, ?_, ?_⟩
  · intro h
    simp only [convert_frame_to_rgba]
    rw [if_pos h]
  · intro hw hh hp
    simp only [convert_frame_to_rgba]
    rw [if_neg (by rintro (h | h) <;> omega), if_pos hp]
  · intro hw hh hp hd
    simp only [convert_frame_to_rgba]
    rw [if_neg (by rintro (h | h) <;> omega), if_neg (by omega), if_pos hd]

/-- Witness for C10: a zero-width frame gives `[]`; a 2x1 `Xrgb8888`
frame with pitch 4 (smaller than the 8 required) gives 8 zero bytes; a
1x2 `Xrgb8888` frame with only 3 data bytes (fewer than
`pitch * height = 8`) gives 8 zero bytes. -/
theorem convert_frame_degenerate_spec_witness :
    convert_frame_to_rgba ⟨0, 1, 0, .Xrgb8888, []⟩ = [] ∧
    convert_frame_to_rgba ⟨2, 1, 4, .Xrgb8888, [1, 2, 3, 4, 5, 6, 7, 8]⟩ =
      List.replicate (2 * 1 * 4) 0 ∧
    convert_frame_to_rgba ⟨1, 2, 4, .Xrgb8888, [1, 2, 3]⟩ =
      List.replicate (1 * 2 * 4) 0 :=
  ⟨(convert_frame_degenerate_spec ⟨0, 1, 0, .Xrgb8888, []⟩).1 (Or.inl rfl),
    (convert_frame_degenerate_spec ⟨2, 1, 4, .Xrgb8888, [1, 2, 3, 4, 5, 6, 7, 8]⟩).2.1
      (by norm_num) (by norm_num) (by simp [bytes_per_pixel]),
    (convert_frame_degenerate_spec ⟨1, 2, 4, .Xrgb8888, [1, 2, 3]⟩).2.2
      (by norm_num) (by norm_num) (by simp [bytes_per_pixel]) (by norm_num)⟩

end PlaybyteClaims
